import Mathlib

/-!
Verification development for the `electron_tasje` packer.

The Rust sources are shallowly embedded as executable Lean definitions:
the configuration model (`src/config.rs`), the environment model
(`src/environment.rs`), the application model (`src/app.rs`), the asar
file-selection composition (`src/pack.rs`) and the file walker
(`src/walker.rs`).  Paths are modelled as lists of path components
(forward-slash separated); external collaborators (the glob matcher
library, the JSON codec, the child interpreter) are modelled from their
documented contracts where noted.
-/

/-! ## Environment (`src/environment.rs`) -/

inductive Architecture where
  | X86_64
  | X86
  | Aarch64
  | ArmV7
deriving DecidableEq

/-- `Architecture::to_node` from `src/environment.rs`. -/
def Architecture.to_node : Architecture → String
  | .X86_64 => "x64"
  | .X86 => "ia32"
  | .Aarch64 => "arm64"
  | .ArmV7 => "arm"

inductive Platform where
  | Linux
  | Windows
  | Darwin
deriving DecidableEq

/-- `Platform::to_node` from `src/environment.rs`. -/
def Platform.to_node : Platform → String
  | .Linux => "linux"
  | .Windows => "win32"
  | .Darwin => "darwin"

structure Environment where
  architecture : Architecture
  platform : Platform
deriving DecidableEq

/-! ## JSON documents (`serde_json::Value`, retained manifests) -/

/-- A JSON document value, as retained by `Package.value`.  Objects are
modelled as association lists of fields, mirroring a JSON object's
key-value pairs. -/
inductive JValue where
  | null
  | bool (b : Bool)
  | num (n : Int)
  | str (s : String)
  | arr (xs : List JValue)
  | obj (fields : List (String × JValue))

/-! ## Configuration model (`src/config.rs`) -/

/-- `FileSet` from `src/config.rs`: a scoped copy definition. -/
structure FileSet where
  from_ : Option String
  to_ : Option String
  filter : List String
deriving DecidableEq

/-- The leading `./`-stripping used by `FileSet::from` and
`FileSet::to`: `strip_prefix("./")` falling back to the raw string. -/
def stripDotSlash (s : String) : String :=
  match s.data with
  | '.' :: '/' :: rest => String.mk rest
  | _ => s

/-- `FileSet::from` accessor: the scope root with a leading `./`
stripped. -/
def FileSet.fromNorm (s : FileSet) : Option String :=
  s.from_.map stripDotSlash

/-- `FileSet::to` accessor: the destination with a leading `./`
stripped. -/
def FileSet.toNorm (s : FileSet) : Option String :=
  s.to_.map stripDotSlash

/-- `CopyDef` from `src/config.rs`. -/
inductive CopyDef where
  | Simple (g : String)
  | Set (s : FileSet)
deriving DecidableEq

structure EBDirectories where
  output : Option String
deriving DecidableEq

structure ProtocolAssociation where
  name : Option String
  schemes : List String
deriving DecidableEq

structure FileAssociation where
  ext : List String
  mime_type : Option String
deriving DecidableEq

structure CommonOverridableProperties where
  description : Option String
  executable_name : Option String
  product_name : Option String
  desktop_name : Option String
deriving DecidableEq

/-- `EBuilderBaseConfig` from `src/config.rs`.  The `desktop` mapping is
modelled as an association list. -/
structure EBuilderBaseConfig where
  common : CommonOverridableProperties
  files : List CopyDef
  asar_unpack : List String
  extra_files : List CopyDef
  extra_resources : List CopyDef
  directories : EBDirectories
  icon : Option String
  protocols : List ProtocolAssociation
  file_associations : List FileAssociation
  extra_metadata : Option JValue
  category : List String
  desktop : Option (List (String × String))

/-- `EBuilderConfig` from `src/config.rs`: the base layer plus the three
platform override layers. -/
structure EBuilderConfig where
  base : EBuilderBaseConfig
  linux : EBuilderBaseConfig
  mac : EBuilderBaseConfig
  win : EBuilderBaseConfig

/-- `EBuilderConfig::current_platform`. -/
def EBuilderConfig.current_platform (c : EBuilderConfig) : Platform → EBuilderBaseConfig
  | .Windows => c.win
  | .Linux => c.linux
  | .Darwin => c.mac

/-- `EBuilderConfig::files`: the platform list when non-empty, else the
base list. -/
def EBuilderConfig.files (c : EBuilderConfig) (platform : Platform) : List CopyDef :=
  let platform_files := (c.current_platform platform).files
  if !platform_files.isEmpty then platform_files else c.base.files

/-- `EBuilderConfig::asar_unpack`. -/
def EBuilderConfig.asar_unpack (c : EBuilderConfig) (platform : Platform) : List String :=
  let platform_asar := (c.current_platform platform).asar_unpack
  if !platform_asar.isEmpty then platform_asar else c.base.asar_unpack

/-- `EBuilderConfig::extra_files`. -/
def EBuilderConfig.extra_files (c : EBuilderConfig) (platform : Platform) : List CopyDef :=
  let platform_extra := (c.current_platform platform).extra_files
  if !platform_extra.isEmpty then platform_extra else c.base.extra_files

/-- `EBuilderConfig::extra_resources`. -/
def EBuilderConfig.extra_resources (c : EBuilderConfig) (platform : Platform) : List CopyDef :=
  let platform_extra := (c.current_platform platform).extra_resources
  if !platform_extra.isEmpty then platform_extra else c.base.extra_resources

/-- `EBuilderConfig::extra_metadata`: the platform entry when present,
else the base entry. -/
def EBuilderConfig.extra_metadata (c : EBuilderConfig) (platform : Platform) : Option JValue :=
  (c.current_platform platform).extra_metadata.or c.base.extra_metadata

/-- `EBuilderConfig::output_dir`. -/
def EBuilderConfig.output_dir (c : EBuilderConfig) (platform : Platform) : Option String :=
  (c.current_platform platform).directories.output.or c.base.directories.output

/-- `EBuilderConfig::protocol_associations`. -/
def EBuilderConfig.protocol_associations (c : EBuilderConfig) (platform : Platform) :
    List ProtocolAssociation :=
  let platform_protocols := (c.current_platform platform).protocols
  if !platform_protocols.isEmpty then platform_protocols else c.base.protocols

/-- `EBuilderConfig::file_associations`. -/
def EBuilderConfig.file_associations (c : EBuilderConfig) (platform : Platform) :
    List FileAssociation :=
  let platform_assocs := (c.current_platform platform).file_associations
  if !platform_assocs.isEmpty then platform_assocs else c.base.file_associations

/-- `EBuilderConfig::desktop_categories`: returns the current platform's
`category` list directly. -/
def EBuilderConfig.desktop_categories (c : EBuilderConfig) (platform : Platform) : List String :=
  (c.current_platform platform).category

/-- `EBuilderConfig::icon_locations`: the four icon candidates (linux,
mac with its default, win with its default, base), flattened. -/
def EBuilderConfig.icon_locations (c : EBuilderConfig) : List String :=
  ([c.linux.icon,
    c.mac.icon.or (some ("build/icon.icns")),
    c.win.icon.or (some ("build/icon.ico")),
    c.base.icon] : List (Option String)).filterMap id

/-- An all-absent `CommonOverridableProperties`, the serde default. -/
def emptyCommon : CommonOverridableProperties :=
  ⟨none, none, none, none⟩

/-- An all-default `EBuilderBaseConfig`, the serde default used for
absent platform sections. -/
def emptyBase : EBuilderBaseConfig :=
  ⟨emptyCommon, [], [], [], [], ⟨none⟩, none, [], [], none, [], none⟩

/-- A configuration whose four layers are all defaults. -/
def emptyConfig : EBuilderConfig :=
  ⟨emptyBase, emptyBase, emptyBase, emptyBase⟩

/-- Concrete configuration for exercising the category accessor: a base
`category` list with no platform-specific override. -/
def cfgBaseCategory : EBuilderConfig :=
  ⟨{ emptyBase with category := ["Tools"] }, emptyBase, emptyBase, emptyBase⟩

/-! ## Asar file-selection composition (`src/pack.rs`) -/

/-- `NODE_MODULES_GLOB` from `src/pack.rs`. -/
def NODE_MODULES_GLOB : CopyDef :=
  CopyDef.Simple ("node_modules/**/*")

/-- `FORCED_FILTERS` from `src/pack.rs`: the fixed forced-exclude glob
overlay, in source order. -/
def FORCED_FILTERS : List CopyDef :=
  ([
    "!**/node_modules/.bin",
    "!**/*.{md,rst,markdown}",
    "!**/{__tests__,powered-test,spec,example,examples,readme,README,Readme,changelog,CHANGELOG,Changelog,ChangeLog}",
    "!**/*.{spec,test}.*",
    "!**/._*",
    "!**/{.editorconfig,.DS_Store,.git,.svn,.hg,CVS,RCS,.gitattributes,.nvmrc,.nycrc,Makefile,CMakeLists.txt}",
    "!**/{__pycache__,thumbs.db,.flowconfig,.idea,.vs,.vscode,.nyc_output,.docker-compose.yml}",
    "!**/{.github,.gitlab,.gitlab-ci.yml,appveyor.yml,.travis.yml,circle.yml,.woodpecker.yml}",
    "!**/{package-lock.json,yarn.lock}",
    "!**/.{git,eslint,tslint,prettier,docker,npm,yarn}ignore",
    "!**/.{prettier,eslint,jshint,jsdoc}rc",
    "!**/{.prettierrc,webpack.config,.jshintrc,jsdoc,.eslintrc,tsconfig}{,.json,.js,.yml,yaml}",
    "!**/{yarn,npm}-{debug,error}{,.log,.json}",
    "!**/.{yarn,npm}-{metadata,integrity}",
    "!**/*.{iml,o,hprof,orig,pyc,pyo,rbc,swp,csproj,sln,xproj,c,h,cc,cpp,hpp,lzz,gyp,d.ts}"
  ] : List String).map CopyDef.Simple

/-- The forced-exclude overlay exactly as the specification's section 6
lists it (written from the spec's words, to compare against the
source's `FORCED_FILTERS`). -/
def specForcedExcludeOverlay : List String :=
  [
    "!**/node_modules/.bin",
    "!**/*.{md,rst,markdown}",
    "!**/{__tests__,powered-test,spec,example,examples,readme,README,Readme,changelog,CHANGELOG,Changelog,ChangeLog}",
    "!**/*.{spec,test}.*",
    "!**/._*",
    "!**/{.editorconfig,.DS_Store,.git,.svn,.hg,CVS,RCS,.gitattributes,.nvmrc,.nycrc,Makefile,CMakeLists.txt}",
    "!**/{__pycache__,thumbs.db,.flowconfig,.idea,.vs,.vscode,.nyc_output,.docker-compose.yml}",
    "!**/{.github,.gitlab,.gitlab-ci.yml,appveyor.yml,.travis.yml,circle.yml,.woodpecker.yml}",
    "!**/{package-lock.json,yarn.lock}",
    "!**/.{git,eslint,tslint,prettier,docker,npm,yarn}ignore",
    "!**/.{prettier,eslint,jshint,jsdoc}rc",
    "!**/{.prettierrc,webpack.config,.jshintrc,jsdoc,.eslintrc,tsconfig}{,.json,.js,.yml,yaml}",
    "!**/{yarn,npm}-{debug,error}{,.log,.json}",
    "!**/.{yarn,npm}-{metadata,integrity}",
    "!**/*.{iml,o,hprof,orig,pyc,pyo,rbc,swp,csproj,sln,xproj,c,h,cc,cpp,hpp,lzz,gyp,d.ts}"
  ]

/-- The `CopyDef` list assembled by `PackingProcess::pack_asar`
(`src/pack.rs`): the `node_modules` glob, then the platform-resolved
`files`, then the CLI-supplied additional files, then the forced
filters. -/
def pack_asar_file_selection (c : EBuilderConfig) (platform : Platform)
    (additional_files : List CopyDef) : List CopyDef :=
  [NODE_MODULES_GLOB] ++ c.files platform ++ additional_files ++ FORCED_FILTERS

/-- Whether a filter string is a negative (exclusion) pattern: it starts
with `!`. -/
def isNegFilter (s : String) : Bool :=
  match s.data with
  | c :: _ => c == '!'
  | [] => false

/-! ## Package and App (`src/package.rs`, `src/app.rs`) -/

structure PackageManifest where
  name : String
  version : String
  common : CommonOverridableProperties
  build : Option EBuilderConfig

/-- `Package` from `src/package.rs`: the verbatim document plus the
parsed manifest. -/
structure Package where
  value : JValue
  manifest : PackageManifest

structure App where
  package : Package
  config : EBuilderConfig
  root : List String

/-- Whether a code point is in the filesafe alphabet `[A-Za-z0-9_-]`. -/
def isFilesafeChar (c : Char) : Bool :=
  ('A' ≤ c && c ≤ 'Z') || ('a' ≤ c && c ≤ 'z') || ('0' ≤ c && c ≤ '9') || c = '_' || c = '-'

/-- The character transformation step of the filesafe name: every `@`
deleted, every `/` replaced by `-`. -/
def filesafeTransform (s : String) : String :=
  String.mk ((s.data.filter (fun c => c ≠ '@')).map (fun c => if c = '/' then '-' else c))

/-- Modelled from the spec: `filesafe_package_name`, which `src/app.rs`
imports from `src/utils.rs` but which the provided `utils.rs` (an older
revision) does not contain.  Per the spec, the name has `@` replaced by
the empty string and `/` by `-`, and the result must match
`^[A-Za-z0-9_-]+$` (so it must be non-empty and drawn from the filesafe
alphabet); otherwise the operation fails with `InvalidPackageName`. -/
def filesafe_package_name (s : String) : Except String String :=
  let t := filesafeTransform s
  if !t.data.isEmpty && t.data.all isFilesafeChar then
    Except.ok t
  else
    Except.error ("unable to make package name filesafe: " ++ s)

/-- The `common_property!` resolution chain of `src/app.rs` for one
field: platform-specific common, then base common, then the manifest's
common. -/
def App.common_property (app : App) (platform : Platform)
    (field : CommonOverridableProperties → Option String) : Option String :=
  ((field (app.config.current_platform platform).common).or
    (field app.config.base.common)).or
    (field app.package.manifest.common)

/-- `App::executable_name` from `src/app.rs`: the filesafe form of the
resolved executable name, falling back to the package name. -/
def App.executable_name (app : App) (platform : Platform) : Except String String :=
  filesafe_package_name
    ((app.common_property platform (fun c => c.executable_name)).getD app.package.manifest.name)

/-- `App::desktop_name` from `src/app.rs`: the resolved desktop name, or
the filesafe package name suffixed with `.desktop`. -/
def App.desktop_name (app : App) (platform : Platform) : Except String String :=
  match app.common_property platform (fun c => c.desktop_name) with
  | some n => Except.ok n
  | none => (filesafe_package_name app.package.manifest.name).map (fun n => n ++ ".desktop")

/-- The error type of `src/app.rs` (`AppParseError`), with external
library error payloads modelled as their messages. -/
inductive AppParseError where
  | JsonError (msg : String)
  | YamlError (msg : String)
  | TomlError (msg : String)
  | Json5Error (msg : String)
  | IoError (msg : String)
  | ConfigFallbackError (msg : String)
  | NoConfigFileExtension
  | UnknownConfigFileExtension (ext : String)
  | NodeProcessError (status_code : Option Int) (stderr : Option String)
deriving DecidableEq

/-- The observable outcome of the external interpreter process run by
`App::run_node_for_config`: exit status code (none when killed by a
signal), captured standard output, and the UTF-8 decoded standard error
(none when not valid UTF-8, as `String::from_utf8(..).ok()`). -/
structure ProcessOutput where
  status_code : Option Int
  stdout : String
  stderr : Option String

/-- `App::run_node_for_config` from `src/app.rs`, with the external
child process and the external JSON codec abstracted: given the JSON
parse function and the child's output, a zero exit status hands the
captured standard output to the JSON parser (whose failure surfaces as
`JsonError`), and any other status produces `NodeProcessError` with the
status code and standard error. -/
def run_node_for_config (parse : String → Except String EBuilderConfig)
    (out : ProcessOutput) : Except AppParseError EBuilderConfig :=
  if out.status_code = some 0 then
    match parse out.stdout with
    | Except.ok c => Except.ok c
    | Except.error msg => Except.error (AppParseError.JsonError msg)
  else
    Except.error (AppParseError.NodeProcessError out.status_code out.stderr)

/-- Insertion into a JSON object, as `serde_json::Map::insert`: the
value of an existing key is replaced in place, a new key is appended. -/
def objInsert : List (String × JValue) → String → JValue → List (String × JValue)
  | [], k, v => [(k, v)]
  | (k', v') :: rest, k, v =>
    if k' = k then (k, v) :: rest else (k', v') :: objInsert rest k v

/-- Key lookup in a JSON object's field list (the first binding wins),
used to state which top-level keys a patch touches. -/
def lookupJ (k : String) : List (String × JValue) → Option JValue
  | [] => none
  | (k', v) :: rest => if k' = k then some v else lookupJ k rest

/-- `App::patched_package` from `src/app.rs`, at the document level: the
retained package document (which must be a JSON object; `as_object_mut
().unwrap()` panics otherwise, modelled as `none`) with the effective
`extra_metadata` object's top-level keys shallow-inserted.  The final
`serde_json::to_vec` serialization is external and not modelled; the
returned field list is the document that gets serialized. -/
def App.patched_package (app : App) (platform : Platform) :
    Option (List (String × JValue)) :=
  match app.package.value with
  | JValue.obj fields =>
    some (match app.config.extra_metadata platform with
      | some (JValue.obj kvs) => kvs.foldl (fun acc kv => objInsert acc kv.1 kv.2) fields
      | _ => fields)
  | _ => none

/-! ## Template expansion

`src/walker.rs` calls `fill_variable_template(glob, environment)` and
`try_flatten`; the provided `src/utils.rs` is an older revision that
lacks both (its `fill_variable_template` has a different signature and
uses host values).  Both are therefore modelled from the spec:
`${arch}` and `${platform}` expand to the target environment's Node
names, `${env.NAME}` to the process environment's value of `NAME`, and
any other variable name fails the build with
`UnknownTemplateVariable`.  A variable reference is `${` followed by a
non-empty run of characters from `[a-zA-Z_. ]` and a closing `}` (the
older revision's regex), the name being space-trimmed before lookup;
text that does not form such a reference is copied verbatim. -/

inductive TemplateError where
  | unknownVariable (name : String)
deriving DecidableEq

/-- The template variable name alphabet `[a-zA-Z_. ]`. -/
def isTemplateChar (c : Char) : Bool :=
  (('A' ≤ c && c ≤ 'Z') || ('a' ≤ c && c ≤ 'z')) || c = '_' || c = '.' || c = ' '

/-- Space-trimming of a variable name, at the character-list level. -/
def trimSpaces (cs : List Char) : List Char :=
  ((cs.dropWhile (fun c => c = ' ')).reverse.dropWhile (fun c => c = ' ')).reverse

/-- Resolution of one template variable name (as captured characters):
`arch`, `platform`, or `env.NAME`; anything else is unknown. -/
def resolveVar (e : Environment) (envv : String → String) (buf : List Char) :
    Except TemplateError (List Char) :=
  let nb := trimSpaces buf
  if nb = ("arch").data then Except.ok (e.architecture.to_node).data
  else if nb = ("platform").data then Except.ok (e.platform.to_node).data
  else if nb.take 4 = ("env.").data then Except.ok (envv (String.mk (nb.drop 4))).data
  else Except.error (TemplateError.unknownVariable (String.mk nb))

/-- Scanner state for template expansion: scanning plain text, just
after a `$`, or inside `${` with the name characters read so far. -/
inductive FillState where
  | normal
  | dollar
  | inVar (buf : List Char)

/-- The template expansion scanner, structurally recursive on the
remaining input. -/
def fillAux (e : Environment) (envv : String → String) :
    FillState → List Char → Except TemplateError (List Char)
  | .normal, [] => Except.ok []
  | .normal, c :: rest =>
    if c = '$' then fillAux e envv .dollar rest
    else (fillAux e envv .normal rest).map (fun r => c :: r)
  | .dollar, [] => Except.ok ['$']
  | .dollar, c :: rest =>
    if c = '{' then fillAux e envv (.inVar []) rest
    else if c = '$' then (fillAux e envv .dollar rest).map (fun r => '$' :: r)
    else (fillAux e envv .normal rest).map (fun r => '$' :: c :: r)
  | .inVar buf, [] => Except.ok ('$' :: '{' :: buf)
  | .inVar buf, c :: rest =>
    if isTemplateChar c then fillAux e envv (.inVar (buf ++ [c])) rest
    else if c = '}' then
      if buf.isEmpty then (fillAux e envv .normal rest).map (fun r => '$' :: '{' :: '}' :: r)
      else
        match resolveVar e envv buf with
        | Except.error err => Except.error err
        | Except.ok repl => (fillAux e envv .normal rest).map (fun r => repl ++ r)
    else if c = '$' then (fillAux e envv .dollar rest).map (fun r => '$' :: '{' :: (buf ++ r))
    else (fillAux e envv .normal rest).map (fun r => '$' :: '{' :: (buf ++ (c :: r)))

/-- Modelled from the spec: `fill_variable_template(template,
environment)` (missing from the provided `src/utils.rs`), with the
process environment passed explicitly. -/
def fill_variable_template (template : String) (e : Environment) (envv : String → String) :
    Except TemplateError String :=
  (fillAux e envv FillState.normal template.data).map (fun cs => String.mk cs)

/-- Modelled from the spec: `try_flatten` (missing from the provided
`src/utils.rs`): collect a sequence of fallible results, propagating
the first error. -/
def try_flatten {E A : Type} : List (Except E A) → Except E (List A)
  | [] => Except.ok []
  | Except.error e :: _ => Except.error e
  | Except.ok a :: rest => (try_flatten rest).map (fun l => a :: l)

/-! ## Glob matching

The `globreeks` matcher is an external library; the spec (§4.2 step 3
and §9) describes its contract: patterns are evaluated in order, `!`
negates, and the last matching pattern decides inclusion (a path
matching nothing is excluded).  Pattern matching itself is modelled for
the pattern forms the claims exercise: literal characters, `?`, `*`
within one path component, and the `**` component.  Matching is
fuel-bounded for structural recursion; the fuel bound always
suffices. -/

/-- One glob segment against one path component, fuel-bounded:
`*` matches any run of characters, `?` any one character, other
characters themselves. -/
def segMatchF : Nat → List Char → List Char → Bool
  | 0, _, _ => false
  | _ + 1, [], [] => true
  | f + 1, '*' :: ps, cs =>
    segMatchF f ps cs ||
      (match cs with
       | [] => false
       | _ :: cs' => segMatchF f ('*' :: ps) cs')
  | f + 1, '?' :: ps, _ :: cs => segMatchF f ps cs
  | f + 1, p :: ps, c :: cs => p = c && segMatchF f ps cs
  | _ + 1, _ :: _, [] => false
  | _ + 1, [], _ :: _ => false

/-- One glob segment against one path component. -/
def segMatch (p cs : List Char) : Bool :=
  segMatchF (p.length + cs.length + 1) p cs

/-- Splitting a character list on `/`. -/
def splitOnSlash : List Char → List (List Char)
  | [] => [[]]
  | '/' :: rest => [] :: splitOnSlash rest
  | c :: rest =>
    match splitOnSlash rest with
    | [] => [[c]]
    | g :: gs => (c :: g) :: gs

/-- Glob segments against path components, fuel-bounded: a `**` segment
matches any number of components. -/
def globSegsMatchF : Nat → List (List Char) → List String → Bool
  | 0, _, _ => false
  | _ + 1, [], [] => true
  | _ + 1, [], _ :: _ => false
  | f + 1, seg :: ps, cs =>
    if seg = ['*', '*'] then
      globSegsMatchF f ps cs ||
        (match cs with
         | [] => false
         | _ :: cs' => globSegsMatchF f (seg :: ps) cs')
    else
      match cs with
      | [] => false
      | c :: cs' => segMatch seg c.data && globSegsMatchF f ps cs'

/-- A glob pattern (as characters) against a relative path (as
components). -/
def globMatch (pat : List Char) (path : List String) : Bool :=
  let segs := splitOnSlash pat
  globSegsMatchF (segs.length + path.length + 1) segs path

/-- One compiled pattern of the glob matcher: its polarity and its
pattern characters (with the leading `!` stripped). -/
structure GlobPat where
  negated : Bool
  pat : List Char
deriving DecidableEq

/-- Compiling one filter string into a pattern. -/
def parseFilter (s : String) : GlobPat :=
  match s.data with
  | c :: rest => if c == '!' then ⟨true, rest⟩ else ⟨false, s.data⟩
  | [] => ⟨false, s.data⟩

/-- `Globreeks::new`: compiling an ordered filter list. -/
def globreeksNew (pats : List String) : List GlobPat :=
  pats.map parseFilter

/-- `Globreeks::evaluate_candidate`, modelled from the spec: scan the
patterns in order, the last matching one decides (positive includes,
negative excludes); a path matching nothing is excluded. -/
def globreeksEval (pats : List GlobPat) (path : List String) : Bool :=
  match pats.foldl
      (fun acc g => if globMatch g.pat path then some (!g.negated) else acc)
      (none : Option Bool) with
  | some b => b
  | none => false

/-! ## Walker (`src/walker.rs`)

Paths are lists of components.  The directory traversal (`walkdir`) is
abstracted as a function `walkRel` giving, for a directory, the
relative paths of the regular files beneath it in traversal order; the
walker is then a pure function from its inputs to the list of
`(source, dest, must_unpack)` triples it yields, global-glob pass
first, then the per-set passes in order, exactly as `Walker::next`
drives them. -/

/-- Rust `Path` components of a string path: split on `/`, dropping
empty and `.` components. -/
def pathComponents (s : String) : List String :=
  ((splitOnSlash s.data).filter (fun g => !g.isEmpty && g ≠ ['.'])).map (fun g => String.mk g)

/-- The `Simple` globs of a `CopyDef` list, in order
(`Walker::new`'s first bucket). -/
def globsOf (to_copy : List CopyDef) : List String :=
  to_copy.filterMap (fun d =>
    match d with
    | CopyDef.Simple g => some g
    | CopyDef.Set _ => none)

/-- The `Set`s of a `CopyDef` list, in order (`Walker::new`'s second
bucket). -/
def setsOf (to_copy : List CopyDef) : List FileSet :=
  to_copy.filterMap (fun d =>
    match d with
    | CopyDef.Simple _ => none
    | CopyDef.Set s => some s)

/-- `Walker::new`'s per-set filter expansion: each set paired with its
template-expanded filters. -/
def expandSets (e : Environment) (envv : String → String) (sets : List FileSet) :
    Except TemplateError (List (FileSet × List String)) :=
  try_flatten (sets.map (fun s =>
    (try_flatten (s.filter.map (fun f => fill_variable_template f e envv))).map
      (fun fl => (s, fl))))

/-- The scope root of a set, as components: `root / (from or "")`. -/
def fromCOf (s : FileSet) : List String :=
  pathComponents (s.fromNorm.getD (""))

/-- The destination of one set-emitted path (`Walker::next`): under
`to` when given (joined with the path relative to `from`), else the
path itself (relative to the walk root). -/
def setDest (s : FileSet) (p suf : List String) : List String :=
  match s.toNorm with
  | some t => pathComponents t ++ suf
  | none => p

/-- `Walker::next`'s all-negative filter augmentation: when no filter
is positive, `**/*` is prepended. -/
def augmentFilters (fl : List String) : List String :=
  if fl.any (fun f => !isNegFilter f) then fl else "**/*" :: fl

/-- The `must_unpack` evaluation: the unpack matcher when provided,
else `false`. -/
def evalUnpack (unpackGlobs : Option (List GlobPat)) (p : List String) : Bool :=
  (unpackGlobs.map (fun g => globreeksEval g p)).getD false

/-- The walker's global-glob pass: skipped entirely when there are no
global globs (`done_with_globs` starts true), else every file under
`root` accepted by the global matcher, emitted as
`(root/p, p, unpack p)`. -/
def walkerGlobalPass (walkRel : List String → List (List String)) (root : List String)
    (globsRaw expanded : List String) (unpackGlobs : Option (List GlobPat)) :
    List (List String × List String × Bool) :=
  if globsRaw.isEmpty then []
  else
    (walkRel root).filterMap (fun p =>
      if globreeksEval (globreeksNew expanded) p then
        some (root ++ p, p, evalUnpack unpackGlobs p)
      else none)

/-- The walker's per-set passes, in set order: each set walks
`root / from`, candidates are the paths relative to `root` (so they
carry the `from` prefix), matched against the set's (possibly
augmented) filters; accepted files are emitted as
`(root/from/suffix, dest, unpack)`. -/
def walkerSetPass (walkRel : List String → List (List String)) (root : List String)
    (esets : List (FileSet × List String)) (unpackGlobs : Option (List GlobPat)) :
    List (List String × List String × Bool) :=
  esets.flatMap (fun se =>
    let s := se.1
    let m := globreeksNew (augmentFilters se.2)
    (walkRel (root ++ fromCOf s)).filterMap (fun suf =>
      let p := fromCOf s ++ suf
      if globreeksEval m p then
        some (root ++ p, setDest s p suf, evalUnpack unpackGlobs p)
      else none))

/-- The full walker (`Walker::new` + iteration of `Walker::next`): the
template-expanded global globs and sets (failed expansion fails the
construction), then the global pass followed by the set passes. -/
def walkerTriples (walkRel : List String → List (List String)) (root : List String)
    (e : Environment) (envv : String → String) (to_copy : List CopyDef)
    (unpack_list : Option (List String)) :
    Except TemplateError (List (List String × List String × Bool)) :=
  match try_flatten ((globsOf to_copy).map (fun f => fill_variable_template f e envv)) with
  | Except.error err => Except.error err
  | Except.ok eg =>
    match expandSets e envv (setsOf to_copy) with
    | Except.error err => Except.error err
    | Except.ok es =>
      let unpackGlobs := unpack_list.map globreeksNew
      Except.ok (walkerGlobalPass walkRel root (globsOf to_copy) eg unpackGlobs ++
        walkerSetPass walkRel root es unpackGlobs)

/-! ## Concrete instances used to exercise the theorems -/

/-- A target environment: Aarch64 Linux. -/
def envAarch64Linux : Environment :=
  ⟨Architecture.Aarch64, Platform.Linux⟩

/-- A concrete process environment with `CARGO_PKG_NAME` set. -/
def envv0 : String → String :=
  fun n => if n = "CARGO_PKG_NAME" then "electron_tasje" else ""

/-- A JSON parser that rejects every input, as `serde_json` does on an
empty document. -/
def parse0 : String → Except String EBuilderConfig :=
  fun _ => Except.error ("EOF while parsing a value at line 1 column 0")

/-- A child process outcome: non-zero exit. -/
def outNonZero : ProcessOutput :=
  ⟨some 2, "", some ("boom")⟩

/-- A child process outcome: zero exit with empty standard output. -/
def outEmptyStdout : ProcessOutput :=
  ⟨some 0, "", none⟩

/-- A one-file filesystem under `r/s`. -/
def walkRelC3 : List String → List (List String) :=
  fun d => if d = ["r", "s"] then [["f"]] else []

/-- A `Set` copying `./s` to `t`, keeping `s/f`. -/
def setC3 : FileSet :=
  ⟨some ("./s"), some ("t"), ["s/f"]⟩

def toCopyC3 : List CopyDef :=
  [CopyDef.Set setC3]

def trsC3 : List (List String × List String × Bool) :=
  [(["r", "s", "f"], ["t", "f"], false)]

/-- A `Set` over `d` with a single negative filter. -/
def setC5 : FileSet :=
  ⟨some ("d"), none, ["!**/*.md"]⟩

/-- A two-file filesystem under `r/d`. -/
def walkRelC5 : List String → List (List String) :=
  fun d => if d = ["r", "d"] then [["a"], ["n.md"]] else []

/-- A configuration carrying base `extra_metadata`. -/
def cfgMeta0 : EBuilderConfig :=
  ⟨{ emptyBase with
      extra_metadata := some (JValue.obj [("version", JValue.str ("2"))]) },
    emptyBase, emptyBase, emptyBase⟩

/-- A package document with `name` and `version` fields. -/
def pkgFields0 : List (String × JValue) :=
  [("name", JValue.str ("tasje")), ("version", JValue.str ("1"))]

/-- An application whose package document is `pkgFields0` and whose
configuration is `cfgMeta0`. -/
def app0 : App :=
  ⟨⟨JValue.obj pkgFields0, ⟨"tasje", "1", emptyCommon, none⟩⟩, cfgMeta0, []⟩


/-! ## Small list helpers -/

theorem isEmpty_false_of_ne_nil {α : Type} {l : List α} (h : l ≠ []) : l.isEmpty = false := by
  cases l with
  | nil => exact absurd rfl h
  | cons a t => rfl

/-! ## Claim C1 -/

/-- Claim C1 (counterexample): a configuration with a non-empty base
`category` and an empty Linux `category` — `desktop_categories` does not
fall back to the base list. -/
theorem c1_desktop_categories_counterexample :
    (cfgBaseCategory.current_platform Platform.Linux).category = [] ∧
    cfgBaseCategory.base.category = ["Tools"] ∧
    cfgBaseCategory.desktop_categories Platform.Linux ≠ cfgBaseCategory.base.category :=
  ⟨rfl, rfl, by decide⟩

/-- The platform-else-base selection shared by the layered list
accessors: the platform list when non-empty, else the base list. -/
theorem layered_list {α : Type} (pl bl : List α) :
    (pl ≠ [] → (if !pl.isEmpty then pl else bl) = pl) ∧
    (pl = [] → (if !pl.isEmpty then pl else bl) = bl) := by
  constructor
  · intro h
    simp [isEmpty_false_of_ne_nil h]
  · intro h
    subst h
    simp

/-- Claim C1 (amended): each of the accessors `files`, `asar_unpack`,
`extra_files`, `extra_resources`, `protocol_associations` and
`file_associations` returns the platform-specific entry when that entry
is non-empty and the base entry otherwise (never a concatenation);
`desktop_categories`, however, returns the platform-specific `category`
list unconditionally and never falls back to the base list. -/
theorem c1_list_accessor_layering (c : EBuilderConfig) (p : Platform) :
    (((c.current_platform p).files ≠ [] → c.files p = (c.current_platform p).files) ∧
      ((c.current_platform p).files = [] → c.files p = c.base.files)) ∧
    (((c.current_platform p).asar_unpack ≠ [] →
        c.asar_unpack p = (c.current_platform p).asar_unpack) ∧
      ((c.current_platform p).asar_unpack = [] → c.asar_unpack p = c.base.asar_unpack)) ∧
    (((c.current_platform p).extra_files ≠ [] →
        c.extra_files p = (c.current_platform p).extra_files) ∧
      ((c.current_platform p).extra_files = [] → c.extra_files p = c.base.extra_files)) ∧
    (((c.current_platform p).extra_resources ≠ [] →
        c.extra_resources p = (c.current_platform p).extra_resources) ∧
      ((c.current_platform p).extra_resources = [] →
        c.extra_resources p = c.base.extra_resources)) ∧
    (((c.current_platform p).protocols ≠ [] →
        c.protocol_associations p = (c.current_platform p).protocols) ∧
      ((c.current_platform p).protocols = [] →
        c.protocol_associations p = c.base.protocols)) ∧
    (((c.current_platform p).file_associations ≠ [] →
        c.file_associations p = (c.current_platform p).file_associations) ∧
      ((c.current_platform p).file_associations = [] →
        c.file_associations p = c.base.file_associations)) ∧
    c.desktop_categories p = (c.current_platform p).category :=
  ⟨layered_list _ _, layered_list _ _, layered_list _ _, layered_list _ _,
    layered_list _ _, layered_list _ _, rfl⟩

/-- Witness for the amended C1 at a concrete configuration. -/
theorem c1_list_accessor_layering_witness :
    cfgBaseCategory.files Platform.Linux = cfgBaseCategory.base.files ∧
    cfgBaseCategory.desktop_categories Platform.Linux =
      (cfgBaseCategory.current_platform Platform.Linux).category :=
  ⟨(c1_list_accessor_layering cfgBaseCategory Platform.Linux).1.2 rfl,
    (c1_list_accessor_layering cfgBaseCategory Platform.Linux).2.2.2.2.2.2⟩

/-! ## Claim C2 -/

/-- Claim C2 (counterexample): the forced-exclude overlay has 15
patterns, not 17. -/
theorem c2_forced_filters_counterexample :
    FORCED_FILTERS.length = 15 ∧ ¬ FORCED_FILTERS.length = 17 := by
  decide

/-- Claim C2 (amended): `pack_asar` composes the selection as the fixed
`node_modules/**/*` glob, then the platform-resolved `files`, then the
CLI-supplied additional globs, then the forced-exclude overlay, which
consists of exactly the 15 negative glob patterns of the spec's section
6, in that order. -/
theorem c2_pack_asar_composition (c : EBuilderConfig) (p : Platform)
    (additional_files : List CopyDef) :
    pack_asar_file_selection c p additional_files =
      CopyDef.Simple ("node_modules/**/*") ::
        (c.files p ++ additional_files ++ specForcedExcludeOverlay.map CopyDef.Simple) ∧
    specForcedExcludeOverlay.length = 15 ∧
    (∀ f ∈ specForcedExcludeOverlay, isNegFilter f = true) := by
  refine ⟨?_, by decide, by decide⟩
  have h : FORCED_FILTERS = specForcedExcludeOverlay.map CopyDef.Simple := rfl
  simp [pack_asar_file_selection, NODE_MODULES_GLOB, h]

/-- Witness for the amended C2 at a concrete configuration, including a
sample membership of the overlay. -/
theorem c2_pack_asar_composition_witness :
    pack_asar_file_selection emptyConfig Platform.Linux [] =
      CopyDef.Simple ("node_modules/**/*") ::
        (emptyConfig.files Platform.Linux ++ [] ++
          specForcedExcludeOverlay.map CopyDef.Simple) ∧
    isNegFilter ("!**/._*") = true :=
  ⟨(c2_pack_asar_composition emptyConfig Platform.Linux []).1,
    (c2_pack_asar_composition emptyConfig Platform.Linux []).2.2 ("!**/._*") (by decide)⟩

/-! ## Claim C6 -/

/-- Claim C6: `icon_locations` is the configured `linux.icon` (omitted
when absent), then `mac.icon` or its default, then `win.icon` or its
default, then `base.icon` (omitted when absent); the defaults are always
present, so the length is between 2 and 4. -/
theorem c6_icon_locations (c : EBuilderConfig) :
    c.icon_locations =
      ((match c.linux.icon with | some i => [i] | none => []) ++
        ([c.mac.icon.getD ("build/icon.icns")] ++
          ([c.win.icon.getD ("build/icon.ico")] ++
            (match c.base.icon with | some i => [i] | none => [])))) ∧
    2 ≤ c.icon_locations.length ∧ c.icon_locations.length ≤ 4 := by
  rcases hl : c.linux.icon with _ | li <;>
    rcases hm : c.mac.icon with _ | mi <;>
      rcases hw : c.win.icon with _ | wi <;>
        rcases hb : c.base.icon with _ | bi <;>
          simp [EBuilderConfig.icon_locations, hl, hm, hw, hb, Option.or]

/-! ## Claim C7 -/

/-- Claim C7 (counterexample): on input `"@"` every remaining code point
(there are none) is in the filesafe alphabet, yet the operation fails
rather than returning the (empty) transformed name. -/
theorem c7_filesafe_counterexample :
    (filesafeTransform ("@")).data.all isFilesafeChar = true ∧
    (∃ msg, filesafe_package_name ("@") = Except.error msg) :=
  ⟨rfl, ⟨"unable to make package name filesafe: @", rfl⟩⟩

/-- Claim C7 (amended): the filesafe-name function deletes every `@`,
replaces every `/` with `-`, and returns the transformed name when it is
non-empty and every remaining code point is in `[A-Za-z0-9_-]`, failing
otherwise (in particular on an empty transformed name); every successful
result is non-empty and drawn from `[A-Za-z0-9_-]`; `@bitwarden/desktop`
yields `bitwarden-desktop` and `bad name!` is an error. -/
theorem c7_filesafe_name (s : String) :
    ((filesafeTransform s).data ≠ [] →
      (filesafeTransform s).data.all isFilesafeChar = true →
      filesafe_package_name s = Except.ok (filesafeTransform s)) ∧
    (∀ r, filesafe_package_name s = Except.ok r →
      r.data ≠ [] ∧ r.data.all isFilesafeChar = true) ∧
    filesafe_package_name ("@bitwarden/desktop") = Except.ok ("bitwarden-desktop") ∧
    (∃ msg, filesafe_package_name ("bad name!") = Except.error msg) := by
  refine ⟨fun h1 h2 => ?_, fun r hr => ?_, rfl, ⟨_, rfl⟩⟩
  · simp [filesafe_package_name, isEmpty_false_of_ne_nil h1, h2]
  · rw [filesafe_package_name] at hr
    by_cases hc : (!(filesafeTransform s).data.isEmpty &&
        (filesafeTransform s).data.all isFilesafeChar) = true
    · simp only [hc, if_true] at hr
      obtain ⟨h1, h2⟩ := Bool.and_eq_true_iff.mp hc
      cases hr
      refine ⟨fun hnil => ?_, h2⟩
      rw [hnil] at h1
      simp at h1
    · simp only [hc, if_false] at hr
      cases hr

/-- Witness for the amended C7. -/
theorem c7_filesafe_name_witness :
    filesafe_package_name ("abc") = Except.ok (filesafeTransform ("abc")) :=
  (c7_filesafe_name ("abc")).1 (by decide) (by decide)

/-! ## Claim C8 -/

/-- Claim C8: a child interpreter exiting with non-zero (or no) status
yields `NodeProcessError` carrying the status code and the captured
standard error; a child exiting 0 with empty standard output hands the
empty document to the JSON parser, whose failure surfaces as a JSON
parse error and never as `NodeProcessError`. -/
theorem c8_run_node_for_config (parse : String → Except String EBuilderConfig)
    (out : ProcessOutput) :
    (out.status_code ≠ some 0 →
      run_node_for_config parse out =
        Except.error (AppParseError.NodeProcessError out.status_code out.stderr)) ∧
    (out.status_code = some 0 → out.stdout = "" →
      ∀ msg, parse ("") = Except.error msg →
        run_node_for_config parse out = Except.error (AppParseError.JsonError msg) ∧
        ∀ sc st, run_node_for_config parse out ≠
          Except.error (AppParseError.NodeProcessError sc st)) := by
  constructor
  · intro h
    simp [run_node_for_config, h]
  · intro h0 hs msg hp
    have hrun : run_node_for_config parse out = Except.error (AppParseError.JsonError msg) := by
      rw [run_node_for_config, if_pos h0, hs, hp]
    refine ⟨hrun, fun sc st hcontra => ?_⟩
    rw [hrun] at hcontra
    injection hcontra with h2
    exact AppParseError.noConfusion h2

/-- Witness for C8: a non-zero exit and a zero exit with empty standard
output, both at concrete process outcomes. -/
theorem c8_run_node_for_config_witness :
    run_node_for_config parse0 outNonZero =
      Except.error (AppParseError.NodeProcessError (some 2) (some ("boom"))) ∧
    run_node_for_config parse0 outEmptyStdout =
      Except.error (AppParseError.JsonError ("EOF while parsing a value at line 1 column 0")) :=
  ⟨(c8_run_node_for_config parse0 outNonZero).1 (by decide),
    ((c8_run_node_for_config parse0 outEmptyStdout).2 rfl rfl _ rfl).1⟩

/-! ## Claim C9 -/

theorem lookupJ_objInsert_self (l : List (String × JValue)) (k : String) (v : JValue) :
    lookupJ k (objInsert l k v) = some v := by
  induction l with
  | nil => simp [objInsert, lookupJ]
  | cons kv rest ih =>
    rcases kv with ⟨a, b⟩
    by_cases h : a = k
    · simp [objInsert, h, lookupJ]
    · simp [objInsert, h, lookupJ, ih]

theorem lookupJ_objInsert_ne (l : List (String × JValue)) (k k' : String) (v : JValue)
    (h : k' ≠ k) : lookupJ k' (objInsert l k v) = lookupJ k' l := by
  have hkk : ¬ k = k' := fun hx => h hx.symm
  induction l with
  | nil => simp [objInsert, lookupJ, hkk]
  | cons kv rest ih =>
    rcases kv with ⟨a, b⟩
    by_cases hk : a = k
    · simp [objInsert, lookupJ, hk, hkk]
    · simp [objInsert, hk, lookupJ, ih]

theorem lookupJ_eq_none_of_not_mem_keys (l : List (String × JValue)) (k : String)
    (h : k ∉ l.map Prod.fst) : lookupJ k l = none := by
  induction l with
  | nil => rfl
  | cons kv rest ih =>
    rcases kv with ⟨a, b⟩
    simp only [List.map_cons, List.mem_cons, not_or] at h
    have ha : ¬ a = k := fun hx => h.1 hx.symm
    simp [lookupJ, ha, ih h.2]

theorem lookupJ_foldl_objInsert_not_mem (kvs : List (String × JValue))
    (fields : List (String × JValue)) (k : String) (h : lookupJ k kvs = none) :
    lookupJ k (kvs.foldl (fun acc kv => objInsert acc kv.1 kv.2) fields) =
      lookupJ k fields := by
  induction kvs generalizing fields with
  | nil => rfl
  | cons kv rest ih =>
    rcases kv with ⟨a, b⟩
    rw [lookupJ] at h
    by_cases hk : a = k
    · simp [hk] at h
    · rw [if_neg hk] at h
      rw [List.foldl_cons, ih _ h, lookupJ_objInsert_ne _ _ _ _ (fun hx => hk (hx.symm))]

theorem lookupJ_foldl_objInsert_mem (kvs : List (String × JValue))
    (fields : List (String × JValue)) (k : String) (v : JValue)
    (hnd : (kvs.map Prod.fst).Nodup) (h : lookupJ k kvs = some v) :
    lookupJ k (kvs.foldl (fun acc kv => objInsert acc kv.1 kv.2) fields) = some v := by
  induction kvs generalizing fields with
  | nil => cases h
  | cons kv rest ih =>
    rcases kv with ⟨a, b⟩
    rw [List.map_cons, List.nodup_cons] at hnd
    rw [lookupJ] at h
    by_cases hk : a = k
    · rw [if_pos hk] at h
      cases h
      have hrest : lookupJ k rest = none := by
        rw [← hk]
        exact lookupJ_eq_none_of_not_mem_keys _ _ hnd.1
      rw [List.foldl_cons, lookupJ_foldl_objInsert_not_mem _ _ _ hrest, ← hk,
        lookupJ_objInsert_self]
    · rw [if_neg hk] at h
      rw [List.foldl_cons]
      exact ih _ hnd.2 h

/-- Claim C9: for a package whose retained document is a JSON object,
`patched_package` with no effective `extra_metadata` returns the
original document unchanged (so its serialization deserializes to the
original manifest), and with an object-valued `extra_metadata` it
shallow-overwrites exactly those top-level keys, leaving every other
top-level key unchanged. -/
theorem c9_patched_package (app : App) (platform : Platform)
    (fields : List (String × JValue)) (hobj : app.package.value = JValue.obj fields) :
    (app.config.extra_metadata platform = none →
      app.patched_package platform = some fields) ∧
    (∀ kvs, app.config.extra_metadata platform = some (JValue.obj kvs) →
      (kvs.map Prod.fst).Nodup →
      ∀ k,
        (lookupJ k kvs = none →
          (app.patched_package platform).map (fun res => lookupJ k res) =
            some (lookupJ k fields)) ∧
        (∀ v, lookupJ k kvs = some v →
          (app.patched_package platform).map (fun res => lookupJ k res) =
            some (some v))) := by
  constructor
  · intro hmeta
    rw [App.patched_package, hobj, hmeta]
  · intro kvs hmeta hnd k
    have hpp : app.patched_package platform =
        some (kvs.foldl (fun acc kv => objInsert acc kv.1 kv.2) fields) := by
      rw [App.patched_package, hobj, hmeta]
    constructor
    · intro hnone
      rw [hpp, Option.map_some']
      exact congrArg some (lookupJ_foldl_objInsert_not_mem _ _ _ hnone)
    · intro v hsome
      rw [hpp, Option.map_some']
      exact congrArg some (lookupJ_foldl_objInsert_mem _ _ _ _ hnd hsome)

/-- Witness for C9 at a concrete application: the `version` key is
overwritten by `extra_metadata` and the `name` key is untouched. -/
theorem c9_patched_package_witness :
    (app0.patched_package Platform.Linux).map (fun res => lookupJ ("version") res) =
      some (some (JValue.str ("2"))) ∧
    (app0.patched_package Platform.Linux).map (fun res => lookupJ ("name") res) =
      some (some (JValue.str ("tasje"))) := by
  have h := c9_patched_package app0 Platform.Linux pkgFields0 rfl
  have h2 := h.2 [("version", JValue.str ("2"))] rfl (by simp)
  refine ⟨(h2 ("version")).2 _ rfl, ?_⟩
  rw [(h2 ("name")).1 rfl]
  rfl

/-! ## Claim C4 -/

theorem stringMk_data (s : String) : String.mk s.data = s := by
  cases s
  rfl

theorem string_data_inj {s t : String} (h : s.data = t.data) : s = t := by
  cases s
  cases t
  exact congrArg String.mk h

theorem fillAux_inVar_shift (e : Environment) (envv : String → String) (cs : List Char) :
    ∀ (buf tail : List Char), (∀ c ∈ cs, isTemplateChar c = true) →
      fillAux e envv (FillState.inVar buf) (cs ++ tail) =
        fillAux e envv (FillState.inVar (buf ++ cs)) tail := by
  induction cs with
  | nil =>
    intro buf tail _
    simp
  | cons c cs ih =>
    intro buf tail h
    have hc : isTemplateChar c = true := h c (List.mem_cons_self c cs)
    have hshift : (buf ++ [c]) ++ cs = buf ++ (c :: cs) := by simp
    rw [List.cons_append]
    simp only [fillAux, hc, if_true]
    rw [ih (buf ++ [c]) tail (fun x hx => h x (List.mem_cons_of_mem c hx)), hshift]

theorem fill_single_var (e : Environment) (envv : String → String) (name : String)
    (h1 : name.data ≠ []) (h2 : ∀ c ∈ name.data, isTemplateChar c = true) :
    fill_variable_template ("$\x7b" ++ name ++ "\x7d") e envv =
      (match resolveVar e envv name.data with
       | Except.error err => Except.error err
       | Except.ok repl => Except.ok (String.mk repl)) := by
  have hdata : ("$\x7b" ++ name ++ "\x7d").data = '$' :: '{' :: (name.data ++ ['}']) := by
    have hd1 : ("$\x7b" ++ name ++ "\x7d").data = ("$\x7b" ++ name).data ++ ("\x7d").data :=
      String.data_append _ _
    have hd2 : ("$\x7b" ++ name).data = ("$\x7b").data ++ name.data := String.data_append _ _
    rw [hd1, hd2]
    simp
  have e1 : fillAux e envv FillState.normal ('$' :: '{' :: (name.data ++ ['}'])) =
      fillAux e envv (FillState.inVar []) (name.data ++ ['}']) := rfl
  have hnc : isTemplateChar '}' = false := by decide
  have hne : name.data.isEmpty = false := isEmpty_false_of_ne_nil h1
  rw [fill_variable_template, hdata, e1,
    fillAux_inVar_shift e envv name.data [] ['}'] h2, List.nil_append]
  cases hres : resolveVar e envv name.data with
  | error err => simp [fillAux, hnc, hne, hres, Except.map]
  | ok repl => simp [fillAux, hnc, hne, hres, Except.map]

/-- Claim C4: template expansion replaces `${arch}` with the target
environment's Node architecture name, `${platform}` with the target
platform's Node name, and `${env.NAME}` with the process environment's
value of `NAME`; any other variable name fails the build with
`UnknownTemplateVariable`; in particular `tasje-${arch}-${platform}`
under an Aarch64/Linux target expands to `tasje-arm64-linux`. -/
theorem c4_template_expansion :
    (∀ (e : Environment) (envv : String → String) (name : String),
      name.data ≠ [] →
      (∀ c ∈ name.data, isTemplateChar c = true) →
      trimSpaces name.data = name.data →
      fill_variable_template ("$\x7b" ++ name ++ "\x7d") e envv =
        (if name = "arch" then Except.ok e.architecture.to_node
         else if name = "platform" then Except.ok e.platform.to_node
         else if name.data.take 4 = ("env.").data then
           Except.ok (envv (String.mk (name.data.drop 4)))
         else Except.error (TemplateError.unknownVariable name))) ∧
    (∀ envv : String → String,
      fill_variable_template ("tasje-${arch}-${platform}") envAarch64Linux envv =
        Except.ok ("tasje-arm64-linux")) := by
  constructor
  · intro e envv name h1 h2 htrim
    rw [fill_single_var e envv name h1 h2]
    simp only [resolveVar, htrim]
    by_cases ha : name = "arch"
    · have had : name.data = ("arch").data := by rw [ha]
      simp [had, ha, stringMk_data]
    · have had : ¬ name.data = ("arch").data := fun hd => ha (string_data_inj hd)
      by_cases hp : name = "platform"
      · have hpd : name.data = ("platform").data := by rw [hp]
        simp [had, hpd, hp, ha, stringMk_data]
      · have hpd : ¬ name.data = ("platform").data := fun hd => hp (string_data_inj hd)
        by_cases he : name.data.take 4 = ("env.").data
        · simp [had, hpd, ha, hp, he, stringMk_data]
        · simp [had, hpd, ha, hp, he, stringMk_data]
  · intro envv
    rfl

/-- Witness for C4: expanding `${env.CARGO_PKG_NAME}` under a concrete
process environment. -/
theorem c4_template_expansion_witness :
    fill_variable_template ("${env.CARGO_PKG_NAME}") envAarch64Linux envv0 =
      Except.ok ("electron_tasje") := by
  have h := c4_template_expansion.1 envAarch64Linux envv0 ("env.CARGO_PKG_NAME")
    (by decide) (by decide) (by decide)
  have hs : ("$\x7b" ++ "env.CARGO_PKG_NAME" ++ "\x7d" : String) = "${env.CARGO_PKG_NAME}" := rfl
  rw [hs] at h
  rw [h]
  rfl

/-! ## Walker helpers -/

theorem try_flatten_mem {E A B : Type} (f : B → Except E A) :
    ∀ (l : List B) (l' : List A), try_flatten (l.map f) = Except.ok l' →
      ∀ y ∈ l', ∃ x ∈ l, f x = Except.ok y := by
  intro l
  induction l with
  | nil =>
    intro l' h y hy
    rw [List.map_nil] at h
    simp only [try_flatten] at h
    cases h
    cases hy
  | cons x xs ih =>
    intro l' h y hy
    rw [List.map_cons] at h
    cases hfx : f x with
    | error err =>
      rw [hfx] at h
      simp only [try_flatten] at h
      cases h
    | ok a =>
      rw [hfx] at h
      simp only [try_flatten] at h
      cases htf : try_flatten (xs.map f) with
      | error err =>
        rw [htf] at h
        simp [Except.map] at h
      | ok l'' =>
        rw [htf] at h
        simp only [Except.map] at h
        cases h
        rcases List.mem_cons.mp hy with hya | hyl
        · exact ⟨x, List.mem_cons_self x xs, hya ▸ hfx⟩
        · obtain ⟨x', hx', hfx'⟩ := ih l'' htf y hyl
          exact ⟨x', List.mem_cons_of_mem x hx', hfx'⟩

theorem expandSets_mem (e : Environment) (envv : String → String) (sets : List FileSet)
    (es : List (FileSet × List String)) (h : expandSets e envv sets = Except.ok es) :
    ∀ p ∈ es, p.1 ∈ sets ∧
      try_flatten (p.1.filter.map (fun f => fill_variable_template f e envv)) =
        Except.ok p.2 := by
  intro p hp
  rw [expandSets] at h
  obtain ⟨s', hs', hf⟩ := try_flatten_mem _ sets es h p hp
  cases htf : try_flatten (s'.filter.map (fun f => fill_variable_template f e envv)) with
  | error err =>
    rw [htf] at hf
    simp [Except.map] at hf
  | ok fl =>
    rw [htf] at hf
    simp only [Except.map] at hf
    cases hf
    exact ⟨hs', htf⟩

theorem setsOf_mem {l : List CopyDef} {s : FileSet} (h : s ∈ setsOf l) :
    CopyDef.Set s ∈ l := by
  rw [setsOf, List.mem_filterMap] at h
  obtain ⟨d, hd, hm⟩ := h
  cases d with
  | Simple g => cases hm
  | Set s' =>
    simp only [Option.some.injEq] at hm
    cases hm
    exact hd

/-! ## Claim C3 -/

/-- Claim C3: every triple `(source, dest, _)` the walker yields has its
source under the root, and either `source = root ++ dest` (global globs
and `Set`s without `to`), or, for a `Set` with `to`, there is a suffix
with `dest = to ++ suffix` and `source = root ++ from ++ suffix`. -/
theorem c3_walker_shape (walkRel : List String → List (List String)) (root : List String)
    (e : Environment) (envv : String → String) (to_copy : List CopyDef)
    (unpack_list : Option (List String)) (trs : List (List String × List String × Bool))
    (h : walkerTriples walkRel root e envv to_copy unpack_list = Except.ok trs) :
    ∀ t ∈ trs,
      (∃ rest, t.1 = root ++ rest) ∧
      (t.1 = root ++ t.2.1 ∨
        ∃ s, CopyDef.Set s ∈ to_copy ∧ ∃ tdir suf,
          s.toNorm = some tdir ∧
          t.2.1 = pathComponents tdir ++ suf ∧
          t.1 = root ++ fromCOf s ++ suf) := by
  intro t ht
  rw [walkerTriples] at h
  cases heg : try_flatten ((globsOf to_copy).map (fun f => fill_variable_template f e envv)) with
  | error err =>
    rw [heg] at h
    cases h
  | ok eg =>
    rw [heg] at h
    cases hes : expandSets e envv (setsOf to_copy) with
    | error err =>
      rw [hes] at h
      cases h
    | ok es =>
      rw [hes] at h
      simp only [Except.ok.injEq] at h
      subst h
      rcases List.mem_append.mp ht with hg | hs
      · rw [walkerGlobalPass] at hg
        by_cases hge : (globsOf to_copy).isEmpty = true
        · rw [if_pos hge] at hg
          cases hg
        · rw [if_neg hge] at hg
          obtain ⟨p, _, hsome⟩ := List.mem_filterMap.mp hg
          by_cases hc : globreeksEval (globreeksNew eg) p = true
          · rw [if_pos hc] at hsome
            cases hsome
            exact ⟨⟨p, rfl⟩, Or.inl rfl⟩
          · rw [if_neg hc] at hsome
            cases hsome
      · rw [walkerSetPass] at hs
        obtain ⟨se, hse, hin⟩ := List.mem_flatMap.mp hs
        obtain ⟨hsmem, _⟩ := expandSets_mem e envv (setsOf to_copy) es hes se hse
        obtain ⟨suf, _, hsome⟩ := List.mem_filterMap.mp hin
        dsimp only at hsome
        by_cases hc :
            globreeksEval (globreeksNew (augmentFilters se.2)) (fromCOf se.1 ++ suf) = true
        · rw [if_pos hc] at hsome
          cases hsome
          refine ⟨⟨fromCOf se.1 ++ suf, rfl⟩, ?_⟩
          cases htn : se.1.toNorm with
          | none =>
            left
            simp [setDest, htn]
          | some tdir =>
            right
            exact ⟨se.1, setsOf_mem hsmem, tdir, suf, htn, by simp [setDest, htn],
              by rw [List.append_assoc]⟩
        · rw [if_neg hc] at hsome
          cases hsome

/-- Witness for C3 at a concrete walk: a `Set` with `from = ./s` and
`to = t` emits `(r/s/f, t/f, false)`. -/
theorem c3_walker_shape_witness :
    (∃ rest, (["r", "s", "f"] : List String) = ["r"] ++ rest) ∧
    ((["r", "s", "f"] : List String) = ["r"] ++ ["t", "f"] ∨
      ∃ s, CopyDef.Set s ∈ toCopyC3 ∧ ∃ tdir suf,
        s.toNorm = some tdir ∧
        (["t", "f"] : List String) = pathComponents tdir ++ suf ∧
        (["r", "s", "f"] : List String) = ["r"] ++ fromCOf s ++ suf) := by
  have h := c3_walker_shape walkRelC3 ["r"] envAarch64Linux envv0 toCopyC3 none trsC3 rfl
  exact h (["r", "s", "f"], ["t", "f"], false) (by decide)

/-! ## Claim C10 -/

theorem globsOf_eq_nil (to_copy : List CopyDef)
    (h : to_copy.all (fun d => match d with
      | CopyDef.Simple _ => false
      | CopyDef.Set _ => true) = true) : globsOf to_copy = [] := by
  induction to_copy with
  | nil => rfl
  | cons d rest ih =>
    simp only [List.all_cons, Bool.and_eq_true] at h
    cases d with
    | Simple g => simp at h
    | Set s => simpa [globsOf, List.filterMap_cons] using ih h.2

/-- Claim C10: with no `Simple` entry in the `CopyDef` list the
global-glob pass yields no triples at all, and the walker's whole output
is exactly the per-set passes (so only-Sets or empty input selects
nothing in the global pass rather than everything). -/
theorem c10_no_global_pass (walkRel : List String → List (List String)) (root : List String)
    (e : Environment) (envv : String → String) (to_copy : List CopyDef)
    (unpack_list : Option (List String))
    (h : to_copy.all (fun d => match d with
      | CopyDef.Simple _ => false
      | CopyDef.Set _ => true) = true) :
    (∀ eg ug, walkerGlobalPass walkRel root (globsOf to_copy) eg ug = []) ∧
    walkerTriples walkRel root e envv to_copy unpack_list =
      (expandSets e envv (setsOf to_copy)).map
        (fun es => walkerSetPass walkRel root es (unpack_list.map globreeksNew)) := by
  have hg := globsOf_eq_nil to_copy h
  constructor
  · intro eg ug
    rw [walkerGlobalPass, hg]
    rfl
  · rw [walkerTriples, hg]
    cases hes : expandSets e envv (setsOf to_copy) with
    | error err =>
      rfl
    | ok es =>
      simp [walkerGlobalPass, try_flatten, Except.map]

/-- Witness for C10: an only-Sets copy list produces nothing from the
global pass and everything from the set pass. -/
theorem c10_no_global_pass_witness :
    walkerGlobalPass walkRelC3 ["r"] (globsOf toCopyC3) [] none = [] ∧
    walkerTriples walkRelC3 ["r"] envAarch64Linux envv0 toCopyC3 none =
      (expandSets envAarch64Linux envv0 (setsOf toCopyC3)).map
        (fun es => walkerSetPass walkRelC3 ["r"] es none) := by
  have h := c10_no_global_pass walkRelC3 ["r"] envAarch64Linux envv0 toCopyC3 none (by decide)
  exact ⟨h.1 [] none, h.2⟩

/-! ## Claim C5 -/

theorem segMatchF_star (cs : List Char) : ∀ f : Nat, cs.length + 2 ≤ f →
    segMatchF f ['*'] cs = true := by
  induction cs with
  | nil =>
    intro f hf
    obtain ⟨f2, rfl⟩ : ∃ f2, f = f2 + 2 := ⟨f - 2, by omega⟩
    rfl
  | cons c cs ih =>
    intro f hf
    simp only [List.length_cons] at hf
    obtain ⟨f1, rfl⟩ : ∃ f1, f = f1 + 1 := ⟨f - 1, by omega⟩
    have h1 : segMatchF f1 [] (c :: cs) = false := by
      cases f1 with
      | zero => rfl
      | succ f2 => rfl
    have h2 : segMatchF f1 ['*'] cs = true := ih f1 (by omega)
    have e : segMatchF (f1 + 1) ['*'] (c :: cs) =
        (segMatchF f1 [] (c :: cs) || segMatchF f1 ['*'] cs) := rfl
    rw [e, h1, h2]
    rfl

theorem segMatch_star (cs : List Char) : segMatch ['*'] cs = true := by
  rw [segMatch]
  exact segMatchF_star cs _ (by simp; omega)

theorem gsm_nil_nil (f : Nat) (h : 1 ≤ f) : globSegsMatchF f [] [] = true := by
  obtain ⟨f1, rfl⟩ : ∃ f1, f = f1 + 1 := ⟨f - 1, by omega⟩
  rfl

theorem gsm_nil_cons (f : Nat) (c : String) (cs : List String) :
    globSegsMatchF f [] (c :: cs) = false := by
  cases f with
  | zero => rfl
  | succ f1 => rfl

theorem gsm_star_nil (f : Nat) (h : 1 ≤ f) : globSegsMatchF f [['*']] [] = false := by
  obtain ⟨f1, rfl⟩ : ∃ f1, f = f1 + 1 := ⟨f - 1, by omega⟩
  rfl

theorem gsm_star_cons (f : Nat) (c : String) (cs : List String) (h : 2 ≤ f) :
    globSegsMatchF f [['*']] (c :: cs) = cs.isEmpty := by
  obtain ⟨f1, rfl⟩ : ∃ f1, f = f1 + 1 := ⟨f - 1, by omega⟩
  have e : globSegsMatchF (f1 + 1) [['*']] (c :: cs) =
      (segMatch ['*'] c.data && globSegsMatchF f1 [] cs) := rfl
  rw [e, segMatch_star, Bool.true_and]
  cases cs with
  | nil => exact gsm_nil_nil f1 (by omega)
  | cons d ds => exact gsm_nil_cons f1 d ds

theorem gsm_doubleStar (p : List String) : ∀ f : Nat, p.length + 3 ≤ f →
    globSegsMatchF f [['*', '*'], ['*']] p = !p.isEmpty := by
  induction p with
  | nil =>
    intro f hf
    obtain ⟨f1, rfl⟩ : ∃ f1, f = f1 + 1 := ⟨f - 1, by omega⟩
    have e : globSegsMatchF (f1 + 1) [['*', '*'], ['*']] [] =
        (globSegsMatchF f1 [['*']] [] || false) := rfl
    rw [e, gsm_star_nil f1 (by omega)]
    rfl
  | cons c cs ih =>
    intro f hf
    simp only [List.length_cons] at hf
    obtain ⟨f1, rfl⟩ : ∃ f1, f = f1 + 1 := ⟨f - 1, by omega⟩
    have e : globSegsMatchF (f1 + 1) [['*', '*'], ['*']] (c :: cs) =
        (globSegsMatchF f1 [['*']] (c :: cs) || globSegsMatchF f1 [['*', '*'], ['*']] cs) := rfl
    rw [e, gsm_star_cons f1 c cs (by omega), ih f1 (by omega)]
    cases cs <;> simp

theorem globMatch_doubleStar (p : List String) : globMatch (("**/*").data) p = !p.isEmpty := by
  have hsplit : splitOnSlash (("**/*").data) = [['*', '*'], ['*']] := rfl
  rw [globMatch, hsplit]
  exact gsm_doubleStar p _ (by simp; omega)

theorem parseFilter_neg (f : String) (h : isNegFilter f = true) :
    parseFilter f = ⟨true, f.data.tail⟩ := by
  cases hd : f.data with
  | nil => simp [isNegFilter, hd] at h
  | cons c rest =>
    rw [isNegFilter, hd] at h
    have hc : c = '!' := by simpa using h
    subst hc
    simp [parseFilter, hd]

theorem globMatch_doubleStarChars (p : List String) :
    globMatch ['*', '*', '/', '*'] p = !p.isEmpty :=
  globMatch_doubleStar p

theorem fill_preserves_neg (f g : String) (e : Environment) (envv : String → String)
    (hn : isNegFilter f = true) (h : fill_variable_template f e envv = Except.ok g) :
    isNegFilter g = true := by
  cases hd : f.data with
  | nil => simp [isNegFilter, hd] at hn
  | cons c rest =>
    rw [isNegFilter] at hn
    rw [hd] at hn
    have hc : c = '!' := by simpa using hn
    subst hc
    rw [fill_variable_template, hd] at h
    have e1 : fillAux e envv FillState.normal ('!' :: rest) =
        (fillAux e envv FillState.normal rest).map (fun r => '!' :: r) := rfl
    rw [e1] at h
    cases hfa : fillAux e envv FillState.normal rest with
    | error err =>
      rw [hfa] at h
      simp [Except.map] at h
    | ok r =>
      rw [hfa] at h
      simp only [Except.map] at h
      cases h
      rfl

theorem foldl_lastmatch_allneg (p : List String) (pats : List GlobPat)
    (hneg : ∀ g ∈ pats, g.negated = true) :
    ∀ acc : Option Bool,
      pats.foldl (fun acc g => if globMatch g.pat p then some (!g.negated) else acc) acc =
        (if pats.any (fun g => globMatch g.pat p) then some false else acc) := by
  induction pats with
  | nil =>
    intro acc
    simp
  | cons g rest ih =>
    intro acc
    have hg : g.negated = true := hneg g (List.mem_cons_self g rest)
    have ihr := ih (fun x hx => hneg x (List.mem_cons_of_mem g hx))
    rw [List.foldl_cons, List.any_cons]
    by_cases hm : globMatch g.pat p = true
    · rw [if_pos hm, ihr, hg]
      simp [hm]
    · rw [if_neg hm, ihr]
      simp [hm]

theorem any_map_parseFilter (fl : List String) (p : List String)
    (hneg : ∀ f ∈ fl, isNegFilter f = true) :
    (fl.map parseFilter).any (fun g => globMatch g.pat p) =
      fl.any (fun f => globMatch f.data.tail p) := by
  induction fl with
  | nil => rfl
  | cons f rest ih =>
    rw [List.map_cons, List.any_cons, List.any_cons,
      parseFilter_neg f (hneg f (List.mem_cons_self f rest)),
      ih (fun x hx => hneg x (List.mem_cons_of_mem f hx))]

theorem all_not_eq_not_any (fl : List String) (q : String → Bool) :
    fl.all (fun f => !q f) = !fl.any q := by
  induction fl with
  | nil => rfl
  | cons f rest ih => simp [List.all_cons, List.any_cons, ih, Bool.not_or]

theorem globreeksEval_allneg (fl : List String) (p : List String)
    (hneg : ∀ f ∈ fl, isNegFilter f = true) :
    globreeksEval (globreeksNew ("**/*" :: fl)) p =
      (!p.isEmpty && fl.all (fun f => !globMatch f.data.tail p)) := by
  have hpats : ∀ g ∈ fl.map parseFilter, g.negated = true := by
    intro g hg
    obtain ⟨f, hf, hfg⟩ := List.mem_map.mp hg
    rw [← hfg, parseFilter_neg f (hneg f hf)]
  have hfirst : parseFilter ("**/*") = ⟨false, ("**/*").data⟩ := rfl
  rw [globreeksEval, globreeksNew, List.map_cons, hfirst, List.foldl_cons,
    foldl_lastmatch_allneg p (fl.map parseFilter) hpats, any_map_parseFilter fl p hneg]
  cases hp : p.isEmpty <;>
    cases hq : fl.any (fun f => globMatch f.data.tail p) <;>
      simp [globMatch_doubleStar, globMatch_doubleStarChars, hp, hq, all_not_eq_not_any]

/-- Claim C5: a `Set` whose filters are all negative gets `**/*`
prepended, so its pass emits exactly the regular files under `from`
whose (`from`-prefixed, non-empty) relative path is matched by none of
the negated patterns — rather than emitting nothing. -/
theorem c5_all_negative_filters (walkRel : List String → List (List String))
    (root : List String) (e : Environment) (envv : String → String) (s : FileSet)
    (fl : List String)
    (hneg : ∀ f ∈ s.filter, isNegFilter f = true)
    (hexp : try_flatten (s.filter.map (fun f => fill_variable_template f e envv)) =
      Except.ok fl) :
    walkerTriples walkRel root e envv [CopyDef.Set s] none =
      Except.ok ((walkRel (root ++ fromCOf s)).filterMap (fun suf =>
        if !(fromCOf s ++ suf).isEmpty &&
            fl.all (fun f => !globMatch f.data.tail (fromCOf s ++ suf)) then
          some (root ++ (fromCOf s ++ suf), setDest s (fromCOf s ++ suf) suf, false)
        else none)) := by
  have hflneg : ∀ g ∈ fl, isNegFilter g = true := by
    intro g hg
    obtain ⟨f, hf, hfg⟩ := try_flatten_mem _ s.filter fl hexp g hg
    exact fill_preserves_neg f g e envv (hneg f hf) hfg
  have hany : fl.any (fun f => !isNegFilter f) = false := by
    cases hca : fl.any (fun f => !isNegFilter f) with
    | false => rfl
    | true =>
      obtain ⟨f, hf, hnf⟩ := List.any_eq_true.mp hca
      rw [hflneg f hf] at hnf
      simp at hnf
  have haug : augmentFilters fl = "**/*" :: fl := by
    rw [augmentFilters, hany]
    simp
  have hes : expandSets e envv [s] = Except.ok [(s, fl)] := by
    simp [expandSets, hexp, try_flatten, Except.map]
  have hglobs : globsOf [CopyDef.Set s] = [] := rfl
  have hsets : setsOf [CopyDef.Set s] = [s] := rfl
  rw [walkerTriples, hglobs, hsets]
  simp only [List.map_nil, try_flatten, hes]
  simp only [walkerGlobalPass, walkerSetPass, List.isEmpty_nil, if_true, List.flatMap_cons,
    List.flatMap_nil, List.append_nil, List.nil_append, haug]
  refine congrArg Except.ok ?_
  refine List.filterMap_congr (fun suf _ => ?_)
  rw [globreeksEval_allneg fl (fromCOf s ++ suf) hflneg]
  rfl

/-- Witness for C5: a `Set` over `d` with only the filter `!**/*.md`
emits `d/a` and excludes `d/n.md`. -/
theorem c5_all_negative_filters_witness :
    walkerTriples walkRelC5 ["r"] envAarch64Linux envv0 [CopyDef.Set setC5] none =
      Except.ok ((walkRelC5 (["r"] ++ fromCOf setC5)).filterMap (fun suf =>
        if !(fromCOf setC5 ++ suf).isEmpty &&
            (["!**/*.md"] : List String).all
              (fun f => !globMatch f.data.tail (fromCOf setC5 ++ suf)) then
          some (["r"] ++ (fromCOf setC5 ++ suf), setDest setC5 (fromCOf setC5 ++ suf) suf,
            false)
        else none)) :=
  c5_all_negative_filters walkRelC5 ["r"] envAarch64Linux envv0 setC5 ["!**/*.md"]
    (by decide) rfl
